import Mathlib

/-!
Verification of the graph-node core against its specification.

Shallow embedding of the relevant parts of the source:
  - src/store/postgres/src/store.rs      (entity store, chain store)
  - src/core/src/subgraph/registrar.rs   (subgraph registrar, assignment events)
  - src/runtime/wasm/src/module.rs       (mapping host)

Rust machine integers (u64 block numbers) are modelled as Nat; the only
arithmetic performed on them in the verified paths is `block_ptr_to.number - 1`
(checked subtraction, which panics on underflow) and comparisons, both made
explicit below.  Fallible Rust functions returning Result are modelled with
Except; Rust panics are modelled as a distinguished error outcome.  Database
access is modelled by passing the query-execution function (or the relevant
table contents) explicitly.
-/

namespace GraphNode

/-! ## Basic data model: values and entities

Source: the Value/Entity types of the graph crate, as consumed by the files
under src/.  Only the variants the verified code paths inspect are modelled
(strings and null; other scalar variants are irrelevant to every claim). -/

inductive Value where
  | vstring (s : String)
  | vnull
  | vint (n : Int)
  | vbool (b : Bool)
deriving DecidableEq

/-- An entity is an ordered mapping from attribute names to values. -/
def Entity := List (String × Value)
deriving DecidableEq

/-- Attribute lookup, first match wins (mirrors Entity::get). -/
def Entity.get (e : Entity) (attr : String) : Option Value :=
  (List.find? (fun p => p.1 == attr) e).map (fun p => p.2)

/-! ## Lexicographic sorting of id lists

The store sorts entity-id lists lexicographically (Vec::sort on String) before
comparing them in apply_abort_unless_operation when the query has no order_by.
String order is byte-lexicographic; modelled on the character lists. -/

def charListLe : List Char → List Char → Bool
  | [], _ => true
  | _ :: _, [] => false
  | a :: as, b :: bs =>
    if a.toNat < b.toNat then true
    else if b.toNat < a.toNat then false
    else charListLe as bs

def strLe (a b : String) : Bool := charListLe a.data b.data

def insertSorted (x : String) : List String → List String
  | [] => [x]
  | y :: ys => if strLe x y then x :: y :: ys else y :: insertSorted x ys

/-- Lexicographic sort of an id list (mirrors Vec::sort). -/
def sortIds (l : List String) : List String := l.foldr insertSorted []

/-! ## Entity store query model (src/store/postgres/src/store.rs)

EntityQuery as carried through store.rs: deployment id, entity type, optional
filter, optional sort key, optional range.  The query planner itself
(execute_query compiling to SQL) reaches the database, so the functions below
that execute queries take the execution function as an explicit argument. -/

inductive ValueType where
  | bigInt | boolean | bytes | float | id | int | string
deriving DecidableEq

inductive EntityOrder where
  | ascending | descending
deriving DecidableEq

/-- Filter tree of EntityQuery.  Only the shapes built by the code under
verification are needed; the tree is carried unchanged by the store functions
modelled here. -/
inductive EntityFilter where
  | equalTo (attr : String) (v : Value)
  | inList (attr : String) (vs : List Value)
  | andAll (fs : List EntityFilter)

structure EntityRange where
  first : Nat
  skip : Nat
deriving DecidableEq

structure EntityQuery where
  subgraph_id : String
  entity_type : String
  filter : Option EntityFilter
  order_by : Option (String × ValueType)
  order_direction : Option EntityOrder
  range : Option EntityRange

structure EntityKey where
  subgraph_id : String
  entity_type : String
  entity_id : String
deriving DecidableEq

structure EthereumBlockPointer where
  hash : String
  number : Nat
deriving DecidableEq

inductive EventSource where
  | noSource
  | ethereumBlock (ptr : EthereumBlockPointer)
deriving DecidableEq

/-- Store-side entity operations (src/store/postgres/src/store.rs shape). -/
inductive EntityOperation where
  | set (key : EntityKey) (data : Entity)
  | remove (key : EntityKey)
  | abortUnless (description : String) (query : EntityQuery) (entity_ids : List String)

/-- Modelled from the spec: EntityOperation::entity_key is defined in the
graph crate, which is not under src/.  Set and Remove carry their entity key;
AbortUnless carries none, so the verification loop of
transact_block_operations (which reads op.entity_key().subgraph_id) treats an
AbortUnless op as not targeting the deployment. -/
def EntityOperation.entity_key : EntityOperation → Option EntityKey
  | .set key _ => some key
  | .remove key => some key
  | .abortUnless _ _ _ => none

/-- Errors surfaced by the store.  Rust panics are modelled as the
distinguished panicked outcome. -/
inductive StoreError where
  | abortUnlessTrip (expected_entity_ids : List String) (actual_entity_ids : List String)
      (description : String)
  | queryExecution (msg : String)
  | panicked (msg : String)
deriving DecidableEq

/-- Entity id extraction (entity.id() in the source): the id attribute read
as a string, failing otherwise. -/
def Entity.entityId (e : Entity) : Option String :=
  match e.get "id" with
  | some (.vstring s) => some s
  | _ => none

/-- Ids of a query result, failing if any entity lacks a string id
(mirrors the collect over entity.id() in apply_abort_unless_operation). -/
def entityIdsOf (es : List Entity) : Option (List String) :=
  es.mapM Entity.entityId

/-- AbortUnless application, from store.rs apply_abort_unless_operation.
run_query stands for execute_query on the live connection. -/
def apply_abort_unless_operation (run_query : EntityQuery → List Entity)
    (description : String) (query : EntityQuery)
    (expected_entity_ids : List String) : Except StoreError Unit :=
  if query.range.isSome && query.order_by.isNone then
    -- Queries with a range but no sort key can vary non-deterministically in
    -- what they return, and so are not suitable for use with AbortUnless.
    .error (.panicked "Cannot use range in an AbortUnless query without order_by")
  else
    match entityIdsOf (run_query query) with
    | none => .error (.queryExecution "AbortUnless: query execution error")
    | some actual_entity_ids =>
      -- Sort entity IDs lexicographically if and only if no sort order is
      -- specified.
      let expected := if query.order_by.isNone then sortIds expected_entity_ids
                      else expected_entity_ids
      let actual := if query.order_by.isNone then sortIds actual_entity_ids
                    else actual_entity_ids
      if actual ≠ expected then
        .error (.abortUnlessTrip expected actual description)
      else
        .ok ()

/-- find_one, from store.rs: find with an implicit limit of one; an explicit
range with first = 0 short-circuits to None without touching the store; an
explicit skip is preserved; more than one result panics. -/
def find_one (run_query : EntityQuery → List Entity) (query : EntityQuery) :
    Except StoreError (Option Entity) :=
  let adjusted : Option EntityQuery :=
    match query.range with
    | some range =>
      if range.first = 0 then none
      else some { query with range := some { range with first := 1 } }
    | none => some { query with range := some { first := 1, skip := 0 } }
  match adjusted with
  | none => .ok none
  | some query =>
    let results := run_query query
    match results with
    | [] => .ok none
    | [e] => .ok (some e)
    | _ => .error (.panicked "find_one query found more than one result")

/-- Modelled from the spec: SubgraphDeploymentEntity ids and the reserved
subgraph-of-subgraphs deployment id (SUBGRAPHS_ID) are defined in the graph
crate, not under src/.  Meta-entities live in this reserved deployment. -/
def SUBGRAPHS_ID : String := "subgraphs"

/-- Modelled from the spec: update_ethereum_block_pointer_operations of
SubgraphDeploymentEntity is defined in the graph crate, not under src/.  Per
the spec it produces the operation updating the latestEthereumBlockHash and
latestEthereumBlockNumber of the Deployment meta-entity, which lives in the
subgraph-of-subgraphs deployment. -/
def update_ethereum_block_pointer_operations (subgraph_id : String)
    (_block_ptr_from block_ptr_to : EthereumBlockPointer) : List EntityOperation :=
  [ .set ⟨SUBGRAPHS_ID, "SubgraphDeployment", subgraph_id⟩
      [ ("latestEthereumBlockHash", .vstring block_ptr_to.hash),
        ("latestEthereumBlockNumber", .vint block_ptr_to.number) ] ]

/-- The op-targeting check of transact_block_operations:
op.entity_key().subgraph_id == subgraph_id. -/
def opTargets (subgraph_id : String) (op : EntityOperation) : Bool :=
  match op.entity_key with
  | some key => key.subgraph_id == subgraph_id
  | none => false

/-- transact_block_operations, from store.rs.  Checks that exactly one block
is being advanced (with checked u64 arithmetic: block_ptr_to.number - 1
panics on underflow when the number is 0) and that every operation targets
the given deployment, then appends the block-pointer update so that entity
writes and the pointer update go to apply_entity_operations as one list,
committed in a single transaction.  The model returns the operation list and
event source handed to apply_entity_operations. -/
def transact_block_operations (subgraph_id : String)
    (block_ptr_from block_ptr_to : EthereumBlockPointer)
    (operations : List EntityOperation) :
    Except StoreError (List EntityOperation × EventSource) :=
  if block_ptr_to.number = 0 then
    .error (.panicked "attempt to subtract with overflow")
  else if block_ptr_from.number ≠ block_ptr_to.number - 1 then
    .error (.panicked "transact_block_operations must transact a single block only")
  else if ¬ (operations.all (opTargets subgraph_id)) then
    .error (.panicked "transact_block_operations must affect only entities in the subgraph")
  else
    .ok (operations ++
          update_ethereum_block_pointer_operations subgraph_id block_ptr_from block_ptr_to,
         .ethereumBlock block_ptr_to)

/-- ancestor_block, from store.rs (ChainStore impl).  The database-side
lookup_ancestor_block function is passed explicitly; it is only consulted
when the offset does not point before the genesis block. -/
def ancestor_block {β : Type} (lookup_ancestor : String → Nat → Option β)
    (block_ptr : EthereumBlockPointer) (offset : Nat) :
    Except String (Option β) :=
  if block_ptr.number < offset then
    .error "block offset points to before genesis block"
  else
    .ok (lookup_ancestor block_ptr.hash offset)


/-! ## Mapping host model (src/runtime/wasm/src/module.rs)

The guest handler is abstracted to the sequence of buffer-mutating host calls
it performs (store.set / store.remove, the only host functions that touch the
externals buffer) together with whether it traps.  Read-only host functions
(store.get, ethereum.call, ipfs.cat, conversions) do not touch the buffer. -/

/-- Entity operations as built by the mapping host (module.rs shape:
subgraph, entity type, id, data). -/
inductive MappingEntityOperation where
  | set (subgraph : String) (entity : String) (id : String) (data : Entity)
  | remove (subgraph : String) (entity : String) (id : String)
deriving DecidableEq

/-- The HostExternals state of a WasmiModule that the verified path touches:
the block hash of the event being mapped and the entity operations collected
while handling events. -/
structure HostExternals where
  subgraph_id : String
  block_hash : String
  entity_operations : List MappingEntityOperation
deriving DecidableEq

/-- store.set host function: appends a Set to the per-event buffer.  Does not
touch the store. -/
def store_set (st : HostExternals) (entity id : String) (data : Entity) :
    HostExternals :=
  { st with entity_operations :=
      st.entity_operations ++ [.set st.subgraph_id entity id data] }

/-- store.remove host function: appends a Remove to the per-event buffer. -/
def store_remove (st : HostExternals) (entity id : String) : HostExternals :=
  { st with entity_operations :=
      st.entity_operations ++ [.remove st.subgraph_id entity id] }

/-- One buffer-mutating host call made by the guest handler. -/
inductive HostCall where
  | storeSet (entity id : String) (data : Entity)
  | storeRemove (entity id : String)
deriving DecidableEq

def runHostCall (st : HostExternals) : HostCall → HostExternals
  | .storeSet entity id data => store_set st entity id data
  | .storeRemove entity id => store_remove st entity id

/-- A guest handler invocation, abstracted to the buffer-mutating host calls
it makes (in order, up to the point of return or trap) and whether it ends in
a trap. -/
structure HandlerRun where
  calls : List HostCall
  traps : Bool
deriving DecidableEq

/-- The operation a host call appends, for a module bound to the given
subgraph. -/
def hostCallOp (subgraph_id : String) : HostCall → MappingEntityOperation
  | .storeSet entity id data => .set subgraph_id entity id data
  | .storeRemove entity id => .remove subgraph_id entity id

/-- handle_ethereum_event, from module.rs: sets block_hash to the event
block, clears the per-event operation buffer, invokes the handler, and
returns the collected entity operations on normal return, or a handler error
(and no operations) if the handler traps. -/
def handle_ethereum_event (st : HostExternals) (handler_name : String)
    (event_block_hash : String) (handler : HandlerRun) :
    HostExternals × Except String (List MappingEntityOperation) :=
  let st1 := { st with block_hash := event_block_hash, entity_operations := [] }
  let st2 := handler.calls.foldl runHostCall st1
  if handler.traps then
    (st2, .error ("Failed to handle Ethereum event with handler " ++ handler_name))
  else
    (st2, .ok st2.entity_operations)

/-! ## Subgraph registrar model (src/core/src/subgraph/registrar.rs)

The registrar reads the meta-entities (Subgraph, SubgraphVersion,
SubgraphDeployment, SubgraphDeploymentAssignment) through store queries and
compiles an operation list that ends in a single apply_entity_operations
call.  The store of meta-entities is modelled typed, one list per entity
type, with the attribute accesses of the source mapped to fields:
a Subgraph entity has attributes id, name, currentVersion (string or null),
createdAt; a SubgraphVersion entity has id, subgraph, deployment, createdAt;
a SubgraphDeploymentAssignment entity has id (the deployment hash) and
nodeId; of a SubgraphDeployment entity only the id is read by the registrar,
so deployments are carried as a list of ids. -/

structure SubgraphEntity where
  id : String
  name : String
  currentVersion : Option String
  createdAt : Nat
deriving DecidableEq

structure VersionEntity where
  id : String
  subgraph : String
  deployment : String
  createdAt : Nat
deriving DecidableEq

structure AssignmentEntity where
  id : String
  nodeId : String
deriving DecidableEq

structure RegistryStore where
  subgraphs : List SubgraphEntity
  versions : List VersionEntity
  deployments : List String
  assignments : List AssignmentEntity
deriving DecidableEq

/-- The store queries the registrar builds (each constructor mirrors one
EntityQuery constructed in registrar.rs, with its filter). -/
inductive RegQuery where
  | subgraphByName (name : String)
  | subgraphByNameAndCurrentVersion (name : String) (currentVersion : Option String)
  | subgraphByCurrentVersionIn (versionIds : List String)
  | versionsBySubgraph (subgraphId : String)
  | versionsByDeployment (hash : String)
  | versionsByDeploymentIn (hashes : List String)
  | deploymentById (id : String)
  | assignmentById (id : String)
deriving DecidableEq

/-- Query evaluation over the registry store, returning entity ids (the
filters are Equal / In trees over the attributes shown; a null currentVersion
matches Equal against Null and matches no member of an In list). -/
def RegistryStore.runQuery (s : RegistryStore) : RegQuery → List String
  | .subgraphByName name =>
    (s.subgraphs.filter (fun sg => sg.name == name)).map (fun sg => sg.id)
  | .subgraphByNameAndCurrentVersion name currentVersion =>
    (s.subgraphs.filter (fun sg =>
      sg.name == name && sg.currentVersion == currentVersion)).map (fun sg => sg.id)
  | .subgraphByCurrentVersionIn versionIds =>
    (s.subgraphs.filter (fun sg =>
      match sg.currentVersion with
      | some cv => versionIds.contains cv
      | none => false)).map (fun sg => sg.id)
  | .versionsBySubgraph subgraphId =>
    (s.versions.filter (fun v => v.subgraph == subgraphId)).map (fun v => v.id)
  | .versionsByDeployment hash =>
    (s.versions.filter (fun v => v.deployment == hash)).map (fun v => v.id)
  | .versionsByDeploymentIn hashes =>
    (s.versions.filter (fun v => hashes.contains v.deployment)).map (fun v => v.id)
  | .deploymentById id => s.deployments.filter (fun d => d == id)
  | .assignmentById id =>
    (s.assignments.filter (fun a => a.id == id)).map (fun a => a.id)

/-- Entity operations as built by the registrar over the meta-entities.  The
write_operations constructors of the schema module (graph crate, not under
src/) are modelled from the spec as one Set operation per entity; abortUnless
carries the query and the expected id list. -/
inductive RegOp where
  | abortUnless (description : String) (query : RegQuery) (entity_ids : List String)
  | setSubgraph (e : SubgraphEntity)
  | setVersion (e : VersionEntity)
  | setDeployment (id : String)
  | setAssignment (e : AssignmentEntity)
  | setCurrentVersion (subgraphId : String) (versionId : String)
  | removeSubgraph (id : String)
  | removeVersion (id : String)
  | removeDeployment (id : String)
  | removeAssignment (id : String)
deriving DecidableEq

def upsertSubgraph (l : List SubgraphEntity) (e : SubgraphEntity) :
    List SubgraphEntity :=
  if l.any (fun x => x.id == e.id) then
    l.map (fun x => if x.id == e.id then e else x)
  else l ++ [e]

def upsertVersion (l : List VersionEntity) (e : VersionEntity) :
    List VersionEntity :=
  if l.any (fun x => x.id == e.id) then
    l.map (fun x => if x.id == e.id then e else x)
  else l ++ [e]

def upsertAssignment (l : List AssignmentEntity) (e : AssignmentEntity) :
    List AssignmentEntity :=
  if l.any (fun x => x.id == e.id) then
    l.map (fun x => if x.id == e.id then e else x)
  else l ++ [e]

/-- Application of one registrar operation to the registry store, following
apply_entity_operation of store.rs: Set upserts by key, Remove deletes by
key, AbortUnless re-runs its query and compares the id lists; since none of
the registrar queries carries an order_by, apply_abort_unless_operation
sorts both lists lexicographically before comparing.  A tripped guard aborts
the whole transaction (modelled as none). -/
def applyRegOp (s : RegistryStore) : RegOp → Option RegistryStore
  | .abortUnless _ q expected =>
    if sortIds (s.runQuery q) = sortIds expected then some s else none
  | .setSubgraph e => some { s with subgraphs := upsertSubgraph s.subgraphs e }
  | .setVersion e => some { s with versions := upsertVersion s.versions e }
  | .setDeployment id =>
    some { s with deployments :=
      if s.deployments.contains id then s.deployments else s.deployments ++ [id] }
  | .setAssignment e =>
    some { s with assignments := upsertAssignment s.assignments e }
  | .setCurrentVersion subgraphId versionId =>
    some { s with subgraphs := s.subgraphs.map (fun sg =>
      if sg.id == subgraphId then { sg with currentVersion := some versionId } else sg) }
  | .removeSubgraph id =>
    some { s with subgraphs := s.subgraphs.filter (fun sg => sg.id != id) }
  | .removeVersion id =>
    some { s with versions := s.versions.filter (fun v => v.id != id) }
  | .removeDeployment id =>
    some { s with deployments := s.deployments.filter (fun d => d != id) }
  | .removeAssignment id =>
    some { s with assignments := s.assignments.filter (fun a => a.id != id) }

/-- Sequential application of an operation list inside one transaction
(apply_entity_operations_with_conn): the first failing operation aborts the
whole list. -/
def applyRegOps (s : RegistryStore) : List RegOp → Option RegistryStore
  | [] => some s
  | op :: rest =>
    match applyRegOp s op with
    | none => none
    | some s2 => applyRegOps s2 rest

/-- Errors of the registrar (SubgraphRegistrarError). -/
inductive SubgraphRegistrarError where
  | nameExists (name : String)
  | nameNotFound (name : String)
  | storeFailure (msg : String)
deriving DecidableEq

/-- store.find_one of a Subgraph entity by name (query with filter
Equal(name), implicit limit 1: the first matching row). -/
def find_subgraph_by_name (s : RegistryStore) (name : String) :
    Option SubgraphEntity :=
  (s.subgraphs.filter (fun sg => sg.name == name)).head?

/-- store.find of the SubgraphVersion entities of a subgraph (filter
Equal(subgraph, id)). -/
def versionsOfSubgraph (s : RegistryStore) (subgraphId : String) :
    List VersionEntity :=
  s.versions.filter (fun v => v.subgraph == subgraphId)

/-- create_subgraph, from registrar.rs: fails with NameExists when a Subgraph
with the name already exists; otherwise produces the operation list (one
AbortUnless guarding continued non-existence of the name, then the insert of
the new Subgraph entity) handed to apply_entity_operations.  The generated
entity id (generate_entity_id) and the creation timestamp (SystemTime::now)
are passed in explicitly. -/
def create_subgraph (s : RegistryStore) (name : String) (fresh_id : String)
    (created_at : Nat) : Except SubgraphRegistrarError (List RegOp) :=
  match find_subgraph_by_name s name with
  | some _ => .error (.nameExists name)
  | none =>
    .ok [ .abortUnless "Subgraph entity should not exist" (.subgraphByName name) [],
          .setSubgraph { id := fresh_id, name := name, currentVersion := none,
                         createdAt := created_at } ]

/-- The old-assignment removal block of create_subgraph_version (registrar.rs
lines 466-523): when currentVersion is being changed (the source compares the
previous currentVersion id string against the new deployment hash string),
look up the previous version; if the previous version points to a different
hash than the new deployment and this subgraph is the only one whose
currentVersion references that hash, remove the Assignment of that hash. -/
def previous_assignment_removal_ops (s : RegistryStore)
    (current_version_id_opt : Option String) (manifest_id : String) :
    Except SubgraphRegistrarError (List RegOp) :=
  if current_version_id_opt ≠ some manifest_id then
    match current_version_id_opt with
    | some current_version_id =>
      match s.versions.find? (fun v => v.id == current_version_id) with
      | none => .error (.storeFailure "Subgraph version entity missing")
      | some previous_version_entity =>
        let previous_version_hash := previous_version_entity.deployment
        if previous_version_hash ≠ manifest_id then
          let referencing_version_entity_ids :=
            (s.versions.filter (fun v =>
              v.deployment == previous_version_hash)).map (fun v => v.id)
          let subgraph_ids_with_current_version_referencing_hash :=
            (s.subgraphs.filter (fun sg =>
              match sg.currentVersion with
              | some cv => referencing_version_entity_ids.contains cv
              | none => false)).map (fun sg => sg.id)
          if subgraph_ids_with_current_version_referencing_hash.length = 1 then
            .ok [RegOp.removeAssignment previous_version_hash]
          else .ok []
        else .ok []
    | none => .ok []
  else .ok []

/-- create_subgraph_version, from registrar.rs: loads the Subgraph by name
(NameNotFound when absent), guards name and currentVersion, inserts the new
Version, creates the Deployment when absent (its chain-store initialisation
data does not affect the registry queries and is not modelled), possibly
removes the Assignment of the previous deployment, creates the Assignment when
absent, and updates currentVersion.  The generated version entity id and
timestamp are passed in explicitly. -/
def create_subgraph_version (s : RegistryStore) (name : String)
    (manifest_id : String) (node_id : String) (fresh_version_id : String)
    (created_at : Nat) : Except SubgraphRegistrarError (List RegOp) :=
  match find_subgraph_by_name s name with
  | none => .error (.nameNotFound name)
  | some subgraph_entity =>
    let current_version_id_opt := subgraph_entity.currentVersion
    match previous_assignment_removal_ops s current_version_id_opt manifest_id with
    | .error e => .error e
    | .ok removal_ops =>
      let deployment_exists := s.deployments.contains manifest_id
      let assignment_exists := s.assignments.any (fun a => a.id == manifest_id)
      .ok (
        [ .abortUnless "Subgraph entity must still exist, have same name and currentVersion"
            (.subgraphByNameAndCurrentVersion name current_version_id_opt)
            [subgraph_entity.id] ] ++
        [ .setVersion { id := fresh_version_id, subgraph := subgraph_entity.id,
                        deployment := manifest_id, createdAt := created_at } ] ++
        [ .abortUnless "Subgraph deployment entity must continue to exist/not exist"
            (.deploymentById manifest_id)
            (if deployment_exists then [manifest_id] else []) ] ++
        (if deployment_exists then [] else [RegOp.setDeployment manifest_id]) ++
        removal_ops ++
        [ .abortUnless "Subgraph assignment entity must continue to exist/not exist"
            (.assignmentById manifest_id)
            (if assignment_exists then [manifest_id] else []) ] ++
        (if assignment_exists then []
         else [RegOp.setAssignment { id := manifest_id, nodeId := node_id }]) ++
        [ .setCurrentVersion subgraph_entity.id fresh_version_id ])

/-! remove_subgraph_versions, from registrar.rs: given the version entities
to delete, computes (H) the deployment hashes they reference, (R) all
versions referencing any hash in H (guarded), the deployments left
unreferenced after the deletion, the subgraphs whose currentVersion is in R
(guarded), the assignments left uncurrent after the deletion, and emits the
removes in order: deployments, assignments, versions.  Each let binding of
the source function is a definition below, named as in the source; HashSet
collection in the source is modelled by dedup (membership is what the later
set operations use). -/

def version_entity_ids_to_delete (version_entities_to_delete : List VersionEntity) :
    List String :=
  (version_entities_to_delete.map (fun v => v.id)).dedup

def referenced_subgraph_hashes (version_entities_to_delete : List VersionEntity) :
    List String :=
  (version_entities_to_delete.map (fun v => v.deployment)).dedup

def all_referencing_versions (s : RegistryStore)
    (version_entities_to_delete : List VersionEntity) : List VersionEntity :=
  s.versions.filter (fun v =>
    (referenced_subgraph_hashes version_entities_to_delete).contains v.deployment)

def all_referencing_version_ids (s : RegistryStore)
    (version_entities_to_delete : List VersionEntity) : List String :=
  (all_referencing_versions s version_entities_to_delete).map (fun v => v.id)

def all_referencing_versions_after_delete (s : RegistryStore)
    (version_entities_to_delete : List VersionEntity) : List VersionEntity :=
  (all_referencing_versions s version_entities_to_delete).filter (fun v =>
    !((version_entity_ids_to_delete version_entities_to_delete).contains v.id))

def subgraph_deployment_hashes_needing_deletion (s : RegistryStore)
    (version_entities_to_delete : List VersionEntity) : List String :=
  (referenced_subgraph_hashes version_entities_to_delete).filter (fun h =>
    !(((all_referencing_versions_after_delete s version_entities_to_delete).map
      (fun v => v.deployment)).contains h))

def subgraphs_with_referencing_version_as_current (s : RegistryStore)
    (version_entities_to_delete : List VersionEntity) : List SubgraphEntity :=
  s.subgraphs.filter (fun sg =>
    match sg.currentVersion with
    | some cv => (all_referencing_version_ids s version_entities_to_delete).contains cv
    | none => false)

def subgraph_ids_with_referencing_version_as_current (s : RegistryStore)
    (version_entities_to_delete : List VersionEntity) : List String :=
  ((subgraphs_with_referencing_version_as_current s version_entities_to_delete).map
    (fun sg => sg.id)).dedup

def all_current_referencing_versions (s : RegistryStore)
    (version_entities_to_delete : List VersionEntity) : List VersionEntity :=
  (all_referencing_versions s version_entities_to_delete).filter (fun v =>
    (subgraphs_with_referencing_version_as_current s version_entities_to_delete).any
      (fun sg => sg.currentVersion == some v.id))

def all_current_referencing_versions_after_delete (s : RegistryStore)
    (version_entities_to_delete : List VersionEntity) : List VersionEntity :=
  (all_current_referencing_versions s version_entities_to_delete).filter (fun v =>
    !((version_entity_ids_to_delete version_entities_to_delete).contains v.id))

def subgraph_assignment_hashes_needing_deletion (s : RegistryStore)
    (version_entities_to_delete : List VersionEntity) : List String :=
  (referenced_subgraph_hashes version_entities_to_delete).filter (fun h =>
    !(((all_current_referencing_versions_after_delete s version_entities_to_delete).map
      (fun v => v.deployment)).contains h))

def remove_subgraph_versions (s : RegistryStore)
    (version_entities_to_delete : List VersionEntity) : List RegOp :=
  [ RegOp.abortUnless "Same set of subgraph versions must reference these subgraph hashes"
      (.versionsByDeploymentIn (referenced_subgraph_hashes version_entities_to_delete))
      (all_referencing_version_ids s version_entities_to_delete) ] ++
  (subgraph_deployment_hashes_needing_deletion s version_entities_to_delete).map
    RegOp.removeDeployment ++
  [ RegOp.abortUnless "Same set of subgraphs must have these versions as current"
      (.subgraphByCurrentVersionIn (all_referencing_version_ids s version_entities_to_delete))
      (subgraph_ids_with_referencing_version_as_current s version_entities_to_delete) ] ++
  (subgraph_assignment_hashes_needing_deletion s version_entities_to_delete).map
    RegOp.removeAssignment ++
  version_entities_to_delete.map (fun v => RegOp.removeVersion v.id)

/-- remove_subgraph, from registrar.rs: finds the Subgraph by name
(NameNotFound when absent), guards its existence and its version set, emits
the garbage-collection operations of remove_subgraph_versions over its
versions, and finally removes the Subgraph entity; all in one operation
list. -/
def remove_subgraph (s : RegistryStore) (name : String) :
    Except SubgraphRegistrarError (List RegOp) :=
  match find_subgraph_by_name s name with
  | none => .error (.nameNotFound name)
  | some subgraph_entity =>
    let subgraph_version_entities := versionsOfSubgraph s subgraph_entity.id
    .ok (
      [ RegOp.abortUnless "Subgraph entity must still exist"
          (.subgraphByName name) [subgraph_entity.id] ] ++
      [ RegOp.abortUnless "Subgraph must have same set of versions"
          (.versionsBySubgraph subgraph_entity.id)
          (subgraph_version_entities.map (fun v => v.id)) ] ++
      remove_subgraph_versions s subgraph_version_entities ++
      [ RegOp.removeSubgraph subgraph_entity.id ])

/-! ## Assignment events and the assignment provider
(src/core/src/subgraph/registrar.rs) -/

inductive EntityChangeOperation where
  | added | updated | removed
deriving DecidableEq

/-- An entity change received from the Assignment change stream. -/
structure EntityChange where
  entity_id : String
  operation : EntityChangeOperation
deriving DecidableEq

inductive AssignmentEvent where
  | add (subgraph_id : String) (node_id : String)
  | remove (subgraph_id : String) (node_id : String)
deriving DecidableEq

/-- The per-change body of assignment_events, from registrar.rs: on
Added/Updated the assignment entity is fetched from the store and the
nodeId attribute decides Add versus Remove; a missing entity yields no
event; Removed always yields Remove.  The id-validation and store.get error
paths (which fail the stream rather than yield events) are outside the
per-change event computation. -/
def assignment_events (store_get : String → Option Entity) (node_id : String)
    (change : EntityChange) : List AssignmentEvent :=
  match change.operation with
  | .added | .updated =>
    match store_get change.entity_id with
    | some entity =>
      if entity.get "nodeId" = some (.vstring node_id) then
        [.add change.entity_id node_id]
      else
        [.remove change.entity_id node_id]
    | none => []
  | .removed => [.remove change.entity_id node_id]

/-- Errors of the assignment provider (SubgraphAssignmentProviderError). -/
inductive SubgraphAssignmentProviderError where
  | alreadyRunning (subgraph_id : String)
  | notRunning (subgraph_id : String)
  | unknown (msg : String)
deriving DecidableEq

/-- handle_assignment_event, from registrar.rs: on Add, provider.start is
called and AlreadyRunning as well as every other start error is absorbed (the
latter after logging), so Add always succeeds; on Remove, provider.stop is
called, NotRunning is absorbed, and every other stop error propagates.  The
provider call results are passed in explicitly. -/
def handle_assignment_event
    (start_result stop_result : Except SubgraphAssignmentProviderError Unit)
    (event : AssignmentEvent) : Except SubgraphAssignmentProviderError Unit :=
  match event with
  | .add _ _ =>
    match start_result with
    | .ok _ => .ok ()
    | .error (.alreadyRunning _) => .ok ()
    | .error _ => .ok ()
  | .remove _ _ =>
    match stop_result with
    | .ok _ => .ok ()
    | .error (.notRunning _) => .ok ()
    | .error e => .error e

/-- The deployment-reference invariant of the spec (a Deployment exists iff
at least one Version references it), as a decidable check on the registry
store. -/
def deploymentInvariant (s : RegistryStore) : Bool :=
  s.deployments.all (fun d => s.versions.any (fun v => v.deployment == d)) &&
  s.versions.all (fun v => s.deployments.contains v.deployment)

/-- Concrete registry store exercising remove_subgraph: subgraph "x" owns
versions v1 (deployment Qm1, current) and v3 (deployment Qm3); subgraph "y"
owns version v2 which also references Qm1, so removing "x" must delete Qm3
but keep Qm1. -/
def removeSubgraphExampleStore : RegistryStore :=
  ⟨ [⟨"s1", "x", some "v1", 0⟩, ⟨"s2", "y", some "v2", 0⟩],
    [⟨"v1", "s1", "Qm1", 0⟩, ⟨"v2", "s2", "Qm1", 0⟩, ⟨"v3", "s1", "Qm3", 0⟩],
    ["Qm1", "Qm3"],
    [⟨"Qm1", "n"⟩] ⟩

/-- The operation list remove_subgraph produces on the example store. -/
def removeSubgraphExampleOps : List RegOp :=
  [ .abortUnless "Subgraph entity must still exist" (.subgraphByName "x") ["s1"],
    .abortUnless "Subgraph must have same set of versions"
      (.versionsBySubgraph "s1") ["v1", "v3"],
    .abortUnless "Same set of subgraph versions must reference these subgraph hashes"
      (.versionsByDeploymentIn ["Qm1", "Qm3"]) ["v1", "v2", "v3"],
    .removeDeployment "Qm3",
    .abortUnless "Same set of subgraphs must have these versions as current"
      (.subgraphByCurrentVersionIn ["v1", "v2", "v3"]) ["s1", "s2"],
    .removeAssignment "Qm3",
    .removeVersion "v1",
    .removeVersion "v3",
    .removeSubgraph "s1" ]

/-- The store remaining after the example removal. -/
def removeSubgraphExampleAfter : RegistryStore :=
  ⟨ [⟨"s2", "y", some "v2", 0⟩], [⟨"v2", "s2", "Qm1", 0⟩], ["Qm1"], [⟨"Qm1", "n"⟩] ⟩


/-! ## Theorems: entity store (claims C2, C3, C9, C10) -/

/-- C2: for every AbortUnless operation applied by the store: a query carrying
a range but no order_by is invalid (panics); without order_by both the
expected and the actual entity-id lists are sorted lexicographically before
comparison; with order_by the lists must match in exact order; on mismatch
the transaction aborts with an AbortUnless error carrying both the (possibly
sorted) expected and actual id lists. -/
theorem abort_unless_semantics (run_query : EntityQuery → List Entity)
    (description : String) (query : EntityQuery) (expected : List String)
    (actual : List String)
    (hids : entityIdsOf (run_query query) = some actual) :
    (query.range.isSome = true → query.order_by = none →
      apply_abort_unless_operation run_query description query expected =
        .error (.panicked "Cannot use range in an AbortUnless query without order_by")) ∧
    (query.order_by = none → query.range = none →
      (apply_abort_unless_operation run_query description query expected = .ok () ↔
        sortIds actual = sortIds expected) ∧
      (sortIds actual ≠ sortIds expected →
        apply_abort_unless_operation run_query description query expected =
          .error (.abortUnlessTrip (sortIds expected) (sortIds actual) description))) ∧
    (∀ ob, query.order_by = some ob →
      (apply_abort_unless_operation run_query description query expected = .ok () ↔
        actual = expected) ∧
      (actual ≠ expected →
        apply_abort_unless_operation run_query description query expected =
          .error (.abortUnlessTrip expected actual description))) := by
  refine ⟨?_, ?_, ?_⟩
  · intro hrange horder
    simp [apply_abort_unless_operation, hrange, horder]
  · intro horder hrange
    by_cases h : sortIds actual = sortIds expected <;>
      simp [apply_abort_unless_operation, horder, hrange, hids, h]
  · intro ob hob
    by_cases h : actual = expected <;>
      simp [apply_abort_unless_operation, hob, hids, h]

theorem abort_unless_semantics_witness :
    entityIdsOf ((fun _ => [[("id", Value.vstring "a")]])
        (⟨"d", "T", none, none, none, none⟩ : EntityQuery)) = some ["a"] ∧
    (((⟨"d", "T", none, none, none, none⟩ : EntityQuery).range.isSome = true →
      (⟨"d", "T", none, none, none, none⟩ : EntityQuery).order_by = none →
      apply_abort_unless_operation (fun _ => [[("id", Value.vstring "a")]]) "g"
          ⟨"d", "T", none, none, none, none⟩ ["a"] =
        .error (.panicked "Cannot use range in an AbortUnless query without order_by")) ∧
    ((⟨"d", "T", none, none, none, none⟩ : EntityQuery).order_by = none →
      (⟨"d", "T", none, none, none, none⟩ : EntityQuery).range = none →
      (apply_abort_unless_operation (fun _ => [[("id", Value.vstring "a")]]) "g"
          ⟨"d", "T", none, none, none, none⟩ ["a"] = .ok () ↔
        sortIds ["a"] = sortIds ["a"]) ∧
      (sortIds ["a"] ≠ sortIds ["a"] →
        apply_abort_unless_operation (fun _ => [[("id", Value.vstring "a")]]) "g"
            ⟨"d", "T", none, none, none, none⟩ ["a"] =
          .error (.abortUnlessTrip (sortIds ["a"]) (sortIds ["a"]) "g"))) ∧
    (∀ ob, (⟨"d", "T", none, none, none, none⟩ : EntityQuery).order_by = some ob →
      (apply_abort_unless_operation (fun _ => [[("id", Value.vstring "a")]]) "g"
          ⟨"d", "T", none, none, none, none⟩ ["a"] = .ok () ↔
        ["a"] = ["a"]) ∧
      (["a"] ≠ ["a"] →
        apply_abort_unless_operation (fun _ => [[("id", Value.vstring "a")]]) "g"
            ⟨"d", "T", none, none, none, none⟩ ["a"] =
          .error (.abortUnlessTrip ["a"] ["a"] "g")))) :=
  ⟨rfl, abort_unless_semantics (fun _ => [[("id", Value.vstring "a")]]) "g"
      ⟨"d", "T", none, none, none, none⟩ ["a"] ["a"] rfl⟩

/-- C3: transact_block_operations panics unless to_ptr.number equals
from_ptr.number + 1 (the case to_ptr.number = 0 is always rejected, since
from_ptr.number + 1 is at least 1: in the source the checked u64 expression
block_ptr_to.number - 1 underflows there); it panics unless every operation
targets an entity of the given deployment; otherwise it hands the operation
list with the block-pointer update appended, tagged with the EthereumBlock
event source, to apply_entity_operations as one atomic transaction. -/
theorem transact_block_operations_spec (subgraph_id : String)
    (pf pt : EthereumBlockPointer) (ops : List EntityOperation) :
    (pt.number ≠ pf.number + 1 →
      ∃ msg, transact_block_operations subgraph_id pf pt ops =
        .error (.panicked msg)) ∧
    (pt.number = pf.number + 1 → ops.all (opTargets subgraph_id) = false →
      transact_block_operations subgraph_id pf pt ops =
        .error (.panicked "transact_block_operations must affect only entities in the subgraph")) ∧
    (pt.number = pf.number + 1 → ops.all (opTargets subgraph_id) = true →
      transact_block_operations subgraph_id pf pt ops =
        .ok (ops ++ update_ethereum_block_pointer_operations subgraph_id pf pt,
             .ethereumBlock pt)) := by
  refine ⟨?_, ?_, ?_⟩
  · intro hne
    by_cases h0 : pt.number = 0
    · exact ⟨"attempt to subtract with overflow",
        by simp [transact_block_operations, h0]⟩
    · have hsub : pf.number ≠ pt.number - 1 := by omega
      exact ⟨"transact_block_operations must transact a single block only",
        by simp [transact_block_operations, h0, hsub]⟩
  · intro heq hall
    have h0 : ¬ pt.number = 0 := by omega
    have hsub : pf.number = pt.number - 1 := by omega
    simp [transact_block_operations, h0, hsub, hall]
  · intro heq hall
    have h0 : ¬ pt.number = 0 := by omega
    have hsub : pf.number = pt.number - 1 := by omega
    simp [transact_block_operations, h0, hsub, hall]

theorem transact_block_operations_spec_witness :
    ((⟨"h2", 5⟩ : EthereumBlockPointer).number ≠
        (⟨"h1", 4⟩ : EthereumBlockPointer).number + 1 →
      ∃ msg, transact_block_operations "d" ⟨"h1", 4⟩ ⟨"h2", 5⟩
          [.remove ⟨"d", "T", "x"⟩] = .error (.panicked msg)) ∧
    ((⟨"h2", 5⟩ : EthereumBlockPointer).number =
        (⟨"h1", 4⟩ : EthereumBlockPointer).number + 1 →
      ([EntityOperation.remove ⟨"d", "T", "x"⟩].all (opTargets "d")) = false →
      transact_block_operations "d" ⟨"h1", 4⟩ ⟨"h2", 5⟩ [.remove ⟨"d", "T", "x"⟩] =
        .error (.panicked "transact_block_operations must affect only entities in the subgraph")) ∧
    ((⟨"h2", 5⟩ : EthereumBlockPointer).number =
        (⟨"h1", 4⟩ : EthereumBlockPointer).number + 1 →
      ([EntityOperation.remove ⟨"d", "T", "x"⟩].all (opTargets "d")) = true →
      transact_block_operations "d" ⟨"h1", 4⟩ ⟨"h2", 5⟩ [.remove ⟨"d", "T", "x"⟩] =
        .ok ([.remove ⟨"d", "T", "x"⟩] ++
              update_ethereum_block_pointer_operations "d" ⟨"h1", 4⟩ ⟨"h2", 5⟩,
             .ethereumBlock ⟨"h2", 5⟩)) :=
  transact_block_operations_spec "d" ⟨"h1", 4⟩ ⟨"h2", 5⟩ [.remove ⟨"d", "T", "x"⟩]

/-- C9: for every EntityQuery carrying an explicit range whose first field is
0, find_one returns Ok(None) without executing any query, regardless of the
store contents; otherwise find_one forces first to 1 (preserving an explicit
skip) and executes the query with limit 1, so given that query execution
honors the limit, the panic branch for more than one result is unreachable
and the single result (if any) is returned. -/
theorem find_one_spec (run_query : EntityQuery → List Entity)
    (query : EntityQuery)
    (hlimit : ∀ q r, q.range = some r → (run_query q).length ≤ r.first) :
    (∀ r, query.range = some r → r.first = 0 →
      ∀ run2 : EntityQuery → List Entity, find_one run2 query = .ok none) ∧
    (query.range = none →
      find_one run_query query =
        .ok (run_query { query with range := some ⟨1, 0⟩ }).head?) ∧
    (∀ r, query.range = some r → r.first ≠ 0 →
      find_one run_query query =
        .ok (run_query { query with range := some ⟨1, r.skip⟩ }).head?) := by
  refine ⟨?_, ?_, ?_⟩
  · intro r hr h0 run2
    simp [find_one, hr, h0]
  · intro hr
    have hlen := hlimit { query with range := some ⟨1, 0⟩ } ⟨1, 0⟩ rfl
    simp only [find_one, hr]
    cases hres : run_query { query with range := some ⟨1, 0⟩ } with
    | nil => simp [hres]
    | cons a t =>
      cases t with
      | nil => simp [hres]
      | cons b t2 => rw [hres] at hlen; simp at hlen
  · intro r hr h0
    have hlen := hlimit { query with range := some ⟨1, r.skip⟩ } ⟨1, r.skip⟩ rfl
    have hadj : ({ r with first := 1 } : EntityRange) = ⟨1, r.skip⟩ := rfl
    simp only [find_one, hr, h0, if_neg h0, hadj]
    cases hres : run_query { query with range := some ⟨1, r.skip⟩ } with
    | nil => simp [hres]
    | cons a t =>
      cases t with
      | nil => simp [hres]
      | cons b t2 => rw [hres] at hlen; simp at hlen

theorem find_one_spec_witness :
    (∀ r, (⟨"d", "T", none, none, none, some ⟨0, 7⟩⟩ : EntityQuery).range = some r →
      r.first = 0 → ∀ run2 : EntityQuery → List Entity,
      find_one run2 ⟨"d", "T", none, none, none, some ⟨0, 7⟩⟩ = .ok none) ∧
    ((⟨"d", "T", none, none, none, some ⟨0, 7⟩⟩ : EntityQuery).range = none →
      find_one (fun _ => []) ⟨"d", "T", none, none, none, some ⟨0, 7⟩⟩ =
        .ok ((fun (_ : EntityQuery) => ([] : List Entity))
          { (⟨"d", "T", none, none, none, some ⟨0, 7⟩⟩ : EntityQuery) with
            range := some ⟨1, 0⟩ }).head?) ∧
    (∀ r, (⟨"d", "T", none, none, none, some ⟨0, 7⟩⟩ : EntityQuery).range = some r →
      r.first ≠ 0 →
      find_one (fun _ => []) ⟨"d", "T", none, none, none, some ⟨0, 7⟩⟩ =
        .ok ((fun (_ : EntityQuery) => ([] : List Entity))
          { (⟨"d", "T", none, none, none, some ⟨0, 7⟩⟩ : EntityQuery) with
            range := some ⟨1, r.skip⟩ }).head?) :=
  find_one_spec (fun _ => []) ⟨"d", "T", none, none, none, some ⟨0, 7⟩⟩
    (fun _ r _ => Nat.zero_le r.first)

/-- C10: for every block pointer and offset with offset greater than the
pointer number, ancestor_block returns the before-genesis error without
consulting the database; the ancestor lookup runs exactly when the offset is
at most the pointer number. -/
theorem ancestor_block_spec {β : Type} (lookup : String → Nat → Option β)
    (ptr : EthereumBlockPointer) (offset : Nat) :
    (ptr.number < offset →
      ∀ lookup2 : String → Nat → Option β,
        ancestor_block lookup2 ptr offset =
          .error "block offset points to before genesis block") ∧
    (offset ≤ ptr.number →
      ancestor_block lookup ptr offset = .ok (lookup ptr.hash offset)) := by
  constructor
  · intro hlt lookup2
    simp [ancestor_block, hlt]
  · intro hle
    simp [ancestor_block, Nat.not_lt.mpr hle]

theorem ancestor_block_spec_witness :
    ((⟨"g", 3⟩ : EthereumBlockPointer).number < 5 →
      ∀ lookup2 : String → Nat → Option Nat,
        ancestor_block lookup2 ⟨"g", 3⟩ 5 =
          .error "block offset points to before genesis block") ∧
    (5 ≤ (⟨"g", 3⟩ : EthereumBlockPointer).number →
      ancestor_block (fun _ _ => some 0) ⟨"g", 3⟩ 5 =
        .ok ((fun (_ : String) (_ : Nat) => some 0) "g" 5)) :=
  ancestor_block_spec (fun _ _ => some 0) ⟨"g", 3⟩ 5

/-! ## Shared helper lemmas -/

lemma contains_iff_mem {α : Type} [BEq α] [LawfulBEq α] (l : List α) (a : α) :
    l.contains a = true ↔ a ∈ l := List.elem_iff

lemma find_subgraph_by_name_eq_none (s : RegistryStore) (name : String) :
    find_subgraph_by_name s name = none ↔ ¬ ∃ sg ∈ s.subgraphs, sg.name = name := by
  simp [find_subgraph_by_name, List.head?_eq_none_iff, List.filter_eq_nil_iff]

lemma foldl_runHostCall (calls : List HostCall) (st : HostExternals) :
    calls.foldl runHostCall st =
      { st with entity_operations :=
          st.entity_operations ++ calls.map (hostCallOp st.subgraph_id) } := by
  induction calls generalizing st with
  | nil => simp
  | cons c cs ih =>
    cases c with
    | storeSet e i d =>
      simp only [List.foldl_cons, runHostCall, store_set, ih, List.map_cons, hostCallOp]
      simp
    | storeRemove e i =>
      simp only [List.foldl_cons, runHostCall, store_remove, ih, List.map_cons, hostCallOp]
      simp

/-! ## Theorems: mapping host, assignment events, provider, create_subgraph
(claims C6, C7, C8, C4) -/

/-- C6: handle_ethereum_event clears the per-event buffer and sets block_hash
to the event block before invoking the handler, so on normal return the
result is exactly the operations accumulated by the host calls of this
invocation (independent of whatever the buffer held before), and on a trap
the result is a handler error carrying no operations. -/
theorem handle_ethereum_event_spec (st : HostExternals)
    (handler_name event_block_hash : String) (handler : HandlerRun) :
    ((handle_ethereum_event st handler_name event_block_hash handler).1.block_hash
        = event_block_hash) ∧
    (handler.traps = false →
      (handle_ethereum_event st handler_name event_block_hash handler).2 =
        .ok (handler.calls.map (hostCallOp st.subgraph_id))) ∧
    (handler.traps = true →
      (handle_ethereum_event st handler_name event_block_hash handler).2 =
        .error ("Failed to handle Ethereum event with handler " ++ handler_name)) := by
  have h := foldl_runHostCall handler.calls
      { st with block_hash := event_block_hash, entity_operations := [] }
  cases htraps : handler.traps <;>
    simp [handle_ethereum_event, htraps, h]

theorem handle_ethereum_event_spec_witness :
    ((handle_ethereum_event ⟨"d", "old", [.remove "d" "T" "x"]⟩ "h" "blk"
        ⟨[.storeSet "T" "y" []], false⟩).1.block_hash = "blk") ∧
    ((⟨[HostCall.storeSet "T" "y" []], false⟩ : HandlerRun).traps = false →
      (handle_ethereum_event ⟨"d", "old", [.remove "d" "T" "x"]⟩ "h" "blk"
          ⟨[.storeSet "T" "y" []], false⟩).2 =
        .ok (([HostCall.storeSet "T" "y" []]).map (hostCallOp "d"))) ∧
    ((⟨[HostCall.storeSet "T" "y" []], false⟩ : HandlerRun).traps = true →
      (handle_ethereum_event ⟨"d", "old", [.remove "d" "T" "x"]⟩ "h" "blk"
          ⟨[.storeSet "T" "y" []], false⟩).2 =
        .error ("Failed to handle Ethereum event with handler " ++ "h")) :=
  handle_ethereum_event_spec ⟨"d", "old", [.remove "d" "T" "x"]⟩ "h" "blk"
    ⟨[.storeSet "T" "y" []], false⟩

/-- C7: the assignment-event mapping yields Add(deployment) on Added/Updated
when the nodeId of the stored assignment entity equals the id of this node,
Remove(deployment) when it differs, Remove(deployment) on every Removed
change regardless of node id, and no event when the entity of an
Added/Updated change is no longer present in the store. -/
theorem assignment_events_spec (store_get : String → Option Entity)
    (node_id : String) (change : EntityChange) :
    ((change.operation = .added ∨ change.operation = .updated) →
      (∀ entity, store_get change.entity_id = some entity →
        (entity.get "nodeId" = some (.vstring node_id) →
          assignment_events store_get node_id change =
            [.add change.entity_id node_id]) ∧
        (entity.get "nodeId" ≠ some (.vstring node_id) →
          assignment_events store_get node_id change =
            [.remove change.entity_id node_id])) ∧
      (store_get change.entity_id = none →
        assignment_events store_get node_id change = [])) ∧
    (change.operation = .removed →
      assignment_events store_get node_id change =
        [.remove change.entity_id node_id]) := by
  constructor
  · intro hop
    constructor
    · intro entity hget
      constructor
      · intro hnode
        rcases hop with h | h <;> simp [assignment_events, h, hget, hnode]
      · intro hnode
        rcases hop with h | h <;> simp [assignment_events, h, hget, hnode]
    · intro hget
      rcases hop with h | h <;> simp [assignment_events, h, hget]
  · intro hop
    simp [assignment_events, hop]

theorem assignment_events_spec_witness :
    (((⟨"Qm1", .added⟩ : EntityChange).operation = .added ∨
        (⟨"Qm1", .added⟩ : EntityChange).operation = .updated) →
      (∀ entity,
        (fun _ => some ([("nodeId", Value.vstring "nodeA")] : Entity))
          (⟨"Qm1", .added⟩ : EntityChange).entity_id = some entity →
        (Entity.get entity "nodeId" = some (.vstring "nodeA") →
          assignment_events (fun _ => some [("nodeId", Value.vstring "nodeA")])
              "nodeA" ⟨"Qm1", .added⟩ =
            [.add (⟨"Qm1", EntityChangeOperation.added⟩ : EntityChange).entity_id "nodeA"]) ∧
        (Entity.get entity "nodeId" ≠ some (.vstring "nodeA") →
          assignment_events (fun _ => some [("nodeId", Value.vstring "nodeA")])
              "nodeA" ⟨"Qm1", .added⟩ =
            [.remove (⟨"Qm1", EntityChangeOperation.added⟩ : EntityChange).entity_id "nodeA"])) ∧
      ((fun _ => some ([("nodeId", Value.vstring "nodeA")] : Entity))
          (⟨"Qm1", .added⟩ : EntityChange).entity_id = none →
        assignment_events (fun _ => some [("nodeId", Value.vstring "nodeA")])
            "nodeA" ⟨"Qm1", .added⟩ = [])) ∧
    ((⟨"Qm1", .added⟩ : EntityChange).operation = .removed →
      assignment_events (fun _ => some [("nodeId", Value.vstring "nodeA")])
          "nodeA" ⟨"Qm1", .added⟩ =
        [.remove (⟨"Qm1", EntityChangeOperation.added⟩ : EntityChange).entity_id "nodeA"]) :=
  assignment_events_spec (fun _ => some [("nodeId", Value.vstring "nodeA")])
    "nodeA" ⟨"Qm1", .added⟩

/-- C8: handling an Add event absorbs every provider.start failure
(AlreadyRunning and any other error, the latter after logging) and returns
success; handling a Remove event absorbs a NotRunning failure of
provider.stop and propagates every other stop error. -/
theorem handle_assignment_event_spec
    (start_result stop_result : Except SubgraphAssignmentProviderError Unit)
    (sid nid : String) :
    (handle_assignment_event start_result stop_result (.add sid nid) = .ok ()) ∧
    (stop_result = .ok () →
      handle_assignment_event start_result stop_result (.remove sid nid) = .ok ()) ∧
    (∀ i, stop_result = .error (.notRunning i) →
      handle_assignment_event start_result stop_result (.remove sid nid) = .ok ()) ∧
    (∀ e, stop_result = .error e → (∀ i, e ≠ .notRunning i) →
      handle_assignment_event start_result stop_result (.remove sid nid) =
        .error e) := by
  refine ⟨?_, ?_, ?_, ?_⟩
  · match start_result with
    | .ok () => rfl
    | .error (.alreadyRunning _) => rfl
    | .error (.notRunning _) => rfl
    | .error (.unknown _) => rfl
  · intro h; simp [handle_assignment_event, h]
  · intro i h; simp [handle_assignment_event, h]
  · intro e h hne
    cases e with
    | alreadyRunning i => simp [handle_assignment_event, h]
    | notRunning i => exact absurd rfl (hne i)
    | unknown m => simp [handle_assignment_event, h]

theorem handle_assignment_event_spec_witness :
    (handle_assignment_event (.error (.unknown "boom")) (.error (.unknown "boom"))
        (.add "Qm1" "nodeA") = .ok ()) ∧
    ((Except.error (SubgraphAssignmentProviderError.unknown "boom") : Except SubgraphAssignmentProviderError Unit) = .ok () →
      handle_assignment_event (.error (.unknown "boom")) (.error (.unknown "boom"))
        (.remove "Qm1" "nodeA") = .ok ()) ∧
    (∀ i, (Except.error (SubgraphAssignmentProviderError.unknown "boom") : Except SubgraphAssignmentProviderError Unit) = .error (.notRunning i) →
      handle_assignment_event (.error (.unknown "boom")) (.error (.unknown "boom"))
        (.remove "Qm1" "nodeA") = .ok ()) ∧
    (∀ e, (Except.error (SubgraphAssignmentProviderError.unknown "boom") : Except SubgraphAssignmentProviderError Unit) = .error e →
      (∀ i, e ≠ .notRunning i) →
      handle_assignment_event (.error (.unknown "boom")) (.error (.unknown "boom"))
        (.remove "Qm1" "nodeA") = .error e) :=
  handle_assignment_event_spec (.error (.unknown "boom"))
    (.error (.unknown "boom")) "Qm1" "nodeA"

/-- C4: create_subgraph fails with NameExists when a Subgraph with the name
exists (the error is returned before any operation list is built or applied,
so the store is unchanged); otherwise it produces the single operation list
of an AbortUnless guarding continued non-existence of the name followed by
the insert of the new Subgraph entity. -/
theorem create_subgraph_spec (s : RegistryStore) (name fresh_id : String)
    (created_at : Nat) :
    ((∃ sg ∈ s.subgraphs, sg.name = name) →
      create_subgraph s name fresh_id created_at = .error (.nameExists name)) ∧
    ((¬ ∃ sg ∈ s.subgraphs, sg.name = name) →
      create_subgraph s name fresh_id created_at =
        .ok [ .abortUnless "Subgraph entity should not exist"
                (.subgraphByName name) [],
              .setSubgraph { id := fresh_id, name := name, currentVersion := none,
                             createdAt := created_at } ]) := by
  constructor
  · intro hex
    cases hfind : find_subgraph_by_name s name with
    | none => exact absurd hex ((find_subgraph_by_name_eq_none s name).mp hfind)
    | some sg => simp [create_subgraph, hfind]
  · intro hnex
    have hfind : find_subgraph_by_name s name = none :=
      (find_subgraph_by_name_eq_none s name).mpr hnex
    simp [create_subgraph, hfind]

theorem create_subgraph_spec_witness :
    ((∃ sg ∈ (⟨[⟨"s1", "x", none, 0⟩], [], [], []⟩ : RegistryStore).subgraphs,
        sg.name = "x") →
      create_subgraph ⟨[⟨"s1", "x", none, 0⟩], [], [], []⟩ "x" "s2" 1 =
        .error (.nameExists "x")) ∧
    ((¬ ∃ sg ∈ (⟨[⟨"s1", "x", none, 0⟩], [], [], []⟩ : RegistryStore).subgraphs,
        sg.name = "x") →
      create_subgraph ⟨[⟨"s1", "x", none, 0⟩], [], [], []⟩ "x" "s2" 1 =
        .ok [ .abortUnless "Subgraph entity should not exist"
                (.subgraphByName "x") [],
              .setSubgraph { id := "s2", name := "x", currentVersion := none,
                             createdAt := 1 } ]) :=
  create_subgraph_spec ⟨[⟨"s1", "x", none, 0⟩], [], [], []⟩ "x" "s2" 1

lemma parops_none (s : RegistryStore) (m : String) :
    previous_assignment_removal_ops s none m = .ok [] := by
  simp [previous_assignment_removal_ops]

lemma parops_same (s : RegistryStore) (m : String) :
    previous_assignment_removal_ops s (some m) m = .ok [] := by
  simp [previous_assignment_removal_ops]

lemma parops_find_none (s : RegistryStore) (cv m : String) (hne : cv ≠ m)
    (hfind : s.versions.find? (fun v => v.id == cv) = none) :
    previous_assignment_removal_ops s (some cv) m =
      .error (.storeFailure "Subgraph version entity missing") := by
  simp [previous_assignment_removal_ops, hne, hfind]

lemma parops_find_some_samehash (s : RegistryStore) (cv m : String)
    (prev : VersionEntity) (hne : cv ≠ m)
    (hfind : s.versions.find? (fun v => v.id == cv) = some prev)
    (hh : prev.deployment = m) :
    previous_assignment_removal_ops s (some cv) m = .ok [] := by
  simp [previous_assignment_removal_ops, hne, hfind, hh]

lemma parops_find_some_diffhash (s : RegistryStore) (cv m : String)
    (prev : VersionEntity) (hne : cv ≠ m)
    (hfind : s.versions.find? (fun v => v.id == cv) = some prev)
    (hh : prev.deployment ≠ m) :
    previous_assignment_removal_ops s (some cv) m =
      (if ((s.subgraphs.filter (fun sg2 =>
          match sg2.currentVersion with
          | some c =>
            ((s.versions.filter (fun v =>
              v.deployment == prev.deployment)).map (fun v => v.id)).contains c
          | none => false)).map (fun sg2 => sg2.id)).length = 1 then
        .ok [RegOp.removeAssignment prev.deployment]
      else .ok []) := by
  simp only [previous_assignment_removal_ops, ne_eq, Option.some.injEq, hne,
    not_false_eq_true, if_true, hfind, hh]

lemma mem_previous_assignment_removal_ops (s : RegistryStore)
    (cvopt : Option String) (manifest_id : String) (rops : List RegOp)
    (hr : previous_assignment_removal_ops s cvopt manifest_id = .ok rops)
    (h : String) :
    RegOp.removeAssignment h ∈ rops ↔
      ∃ cv, cvopt = some cv ∧ cv ≠ manifest_id ∧
      ∃ prev, s.versions.find? (fun v => v.id == cv) = some prev ∧
        prev.deployment = h ∧ h ≠ manifest_id ∧
        ((s.subgraphs.filter (fun sg2 =>
          match sg2.currentVersion with
          | some c =>
            ((s.versions.filter (fun v => v.deployment == h)).map
              (fun v => v.id)).contains c
          | none => false)).map (fun sg2 => sg2.id)).length = 1 := by
  cases hcvopt : cvopt with
  | none =>
    rw [hcvopt, parops_none] at hr
    have hrops : rops = [] := by simpa using hr.symm
    subst hrops
    simp
  | some cv =>
    rw [hcvopt] at hr
    by_cases hcvne : cv = manifest_id
    · subst hcvne
      rw [parops_same] at hr
      have hrops : rops = [] := by simpa using hr.symm
      subst hrops
      simp only [List.not_mem_nil, false_iff]
      rintro ⟨cv2, hcv2, hne2, -⟩
      exact hne2 (by simpa using hcv2.symm)
    · cases hfindv : s.versions.find? (fun v => v.id == cv) with
      | none =>
        rw [parops_find_none s cv manifest_id hcvne hfindv] at hr
        exact absurd hr (by simp)
      | some prev =>
        by_cases hhash : prev.deployment = manifest_id
        · rw [parops_find_some_samehash s cv manifest_id prev hcvne hfindv hhash] at hr
          have hrops : rops = [] := by simpa using hr.symm
          subst hrops
          simp only [List.not_mem_nil, false_iff]
          rintro ⟨cv2, hcv2, -, prev2, hfind2, hdep2, hne2, -⟩
          have hcc : cv2 = cv := by simpa using hcv2.symm
          subst hcc
          rw [hfindv] at hfind2
          have hpp : prev = prev2 := by simpa using hfind2
          subst hpp
          exact hne2 (hdep2 ▸ hhash)
        · rw [parops_find_some_diffhash s cv manifest_id prev hcvne hfindv hhash] at hr
          by_cases hcount :
            ((s.subgraphs.filter (fun sg2 =>
              match sg2.currentVersion with
              | some c =>
                ((s.versions.filter (fun v =>
                  v.deployment == prev.deployment)).map (fun v => v.id)).contains c
              | none => false)).map (fun sg2 => sg2.id)).length = 1
          · rw [if_pos hcount] at hr
            have hrops : rops = [RegOp.removeAssignment prev.deployment] := by
              simpa using hr.symm
            subst hrops
            constructor
            · intro hmem
              have hhd : h = prev.deployment := by simpa using hmem
              subst hhd
              exact ⟨cv, rfl, hcvne, prev, hfindv, rfl, hhash, hcount⟩
            · rintro ⟨cv2, hcv2, -, prev2, hfind2, hdep2, -, -⟩
              have hcc : cv2 = cv := by simpa using hcv2.symm
              subst hcc
              rw [hfindv] at hfind2
              have hpp : prev = prev2 := by simpa using hfind2
              subst hpp
              simp [hdep2]
          · rw [if_neg hcount] at hr
            have hrops : rops = [] := by simpa using hr.symm
            subst hrops
            simp only [List.not_mem_nil, false_iff]
            rintro ⟨cv2, hcv2, -, prev2, hfind2, hdep2, -, hcount2⟩
            have hcc : cv2 = cv := by simpa using hcv2.symm
            subst hcc
            rw [hfindv] at hfind2
            have hpp : prev = prev2 := by simpa using hfind2
            subst hpp
            exact hcount (hdep2 ▸ hcount2)

lemma create_subgraph_version_eq (s : RegistryStore)
    (name manifest_id node_id fresh_version_id : String) (created_at : Nat)
    (sg : SubgraphEntity) (removal_ops : List RegOp)
    (hfind : find_subgraph_by_name s name = some sg)
    (hrem : previous_assignment_removal_ops s sg.currentVersion manifest_id =
      .ok removal_ops) :
    create_subgraph_version s name manifest_id node_id fresh_version_id
        created_at =
      .ok (
        [ .abortUnless "Subgraph entity must still exist, have same name and currentVersion"
            (.subgraphByNameAndCurrentVersion name sg.currentVersion)
            [sg.id] ] ++
        [ .setVersion { id := fresh_version_id, subgraph := sg.id,
                        deployment := manifest_id, createdAt := created_at } ] ++
        [ .abortUnless "Subgraph deployment entity must continue to exist/not exist"
            (.deploymentById manifest_id)
            (if s.deployments.contains manifest_id then [manifest_id] else []) ] ++
        (if s.deployments.contains manifest_id then []
         else [RegOp.setDeployment manifest_id]) ++
        removal_ops ++
        [ .abortUnless "Subgraph assignment entity must continue to exist/not exist"
            (.assignmentById manifest_id)
            (if s.assignments.any (fun a => a.id == manifest_id)
             then [manifest_id] else []) ] ++
        (if s.assignments.any (fun a => a.id == manifest_id) then []
         else [RegOp.setAssignment { id := manifest_id, nodeId := node_id }]) ++
        [ .setCurrentVersion sg.id fresh_version_id ]) := by
  simp only [create_subgraph_version, hfind, hrem]

/-- C5 (amended): in create_subgraph_version, a Remove of the previous
Assignment of the previous deployment is emitted exactly when the previous currentVersion
exists, its version-entity id differs from the new deployment id string (the
guard at registrar.rs line 467 compares the currentVersion id against the
manifest hash), the version it names exists and references a deployment hash
that (a) differs from the new deployment id and (b) is referenced as
currentVersion by exactly one Subgraph; in every other successful case no
Assignment removal is emitted. -/
theorem create_subgraph_version_assignment_removal
    (s : RegistryStore) (name manifest_id node_id fresh_version_id : String)
    (created_at : Nat) (ops : List RegOp)
    (hops : create_subgraph_version s name manifest_id node_id fresh_version_id
        created_at = .ok ops) (h : String) :
    RegOp.removeAssignment h ∈ ops ↔
      ∃ sg, find_subgraph_by_name s name = some sg ∧
      ∃ cv, sg.currentVersion = some cv ∧ cv ≠ manifest_id ∧
      ∃ prev, s.versions.find? (fun v => v.id == cv) = some prev ∧
        prev.deployment = h ∧ h ≠ manifest_id ∧
        ((s.subgraphs.filter (fun sg2 =>
          match sg2.currentVersion with
          | some c =>
            ((s.versions.filter (fun v => v.deployment == h)).map
              (fun v => v.id)).contains c
          | none => false)).map (fun sg2 => sg2.id)).length = 1 := by
  cases hfind : find_subgraph_by_name s name with
  | none => rw [create_subgraph_version, hfind] at hops; exact absurd hops (by simp)
  | some sg =>
    cases hrem : previous_assignment_removal_ops s sg.currentVersion manifest_id with
    | error e =>
      simp [create_subgraph_version, hfind, hrem] at hops
    | ok removal_ops =>
      rw [create_subgraph_version_eq s name manifest_id node_id fresh_version_id
        created_at sg removal_ops hfind hrem] at hops
      injection hops with hops2
      subst hops2
      have hmem := mem_previous_assignment_removal_ops s sg.currentVersion
        manifest_id removal_ops hrem h
      constructor
      · intro hin
        simp only [List.mem_append, List.mem_singleton] at hin
        rcases hin with ((((((h1 | h2) | h3) | h4) | h5) | h6) | h7) | h8
        · exact absurd h1 (by simp)
        · exact absurd h2 (by simp)
        · exact absurd h3 (by simp)
        · by_cases hd : s.deployments.contains manifest_id <;>
            simp [hd] at h4
        · exact ⟨sg, rfl, hmem.mp h5⟩
        · exact absurd h6 (by simp)
        · by_cases ha : s.assignments.any (fun a => a.id == manifest_id) <;>
            simp [ha] at h7
        · exact absurd h8 (by simp)
      · rintro ⟨sg2, hfind2, hrest⟩
        have hss : sg = sg2 := by simpa using hfind2
        subst hss
        have hmem2 : RegOp.removeAssignment h ∈ removal_ops := hmem.mpr hrest
        simp only [List.mem_append, List.mem_singleton]
        tauto

theorem create_subgraph_version_assignment_removal_witness :
    create_subgraph_version
        ⟨[⟨"s1", "x", some "v1", 0⟩], [⟨"v1", "s1", "QmOld", 0⟩],
          ["QmOld"], [⟨"QmOld", "nodeA"⟩]⟩
        "x" "QmNew" "nodeA" "v2" 1 =
      .ok [ .abortUnless "Subgraph entity must still exist, have same name and currentVersion"
              (.subgraphByNameAndCurrentVersion "x" (some "v1")) ["s1"],
            .setVersion ⟨"v2", "s1", "QmNew", 1⟩,
            .abortUnless "Subgraph deployment entity must continue to exist/not exist"
              (.deploymentById "QmNew") [],
            .setDeployment "QmNew",
            .removeAssignment "QmOld",
            .abortUnless "Subgraph assignment entity must continue to exist/not exist"
              (.assignmentById "QmNew") [],
            .setAssignment ⟨"QmNew", "nodeA"⟩,
            .setCurrentVersion "s1" "v2" ] ∧
    (RegOp.removeAssignment "QmOld" ∈
        [ RegOp.abortUnless "Subgraph entity must still exist, have same name and currentVersion"
            (.subgraphByNameAndCurrentVersion "x" (some "v1")) ["s1"],
          .setVersion ⟨"v2", "s1", "QmNew", 1⟩,
          .abortUnless "Subgraph deployment entity must continue to exist/not exist"
            (.deploymentById "QmNew") [],
          .setDeployment "QmNew",
          .removeAssignment "QmOld",
          .abortUnless "Subgraph assignment entity must continue to exist/not exist"
            (.assignmentById "QmNew") [],
          .setAssignment ⟨"QmNew", "nodeA"⟩,
          .setCurrentVersion "s1" "v2" ] ↔
      ∃ sg, find_subgraph_by_name
          ⟨[⟨"s1", "x", some "v1", 0⟩], [⟨"v1", "s1", "QmOld", 0⟩],
            ["QmOld"], [⟨"QmOld", "nodeA"⟩]⟩ "x" = some sg ∧
      ∃ cv, sg.currentVersion = some cv ∧ cv ≠ "QmNew" ∧
      ∃ prev, (⟨[⟨"s1", "x", some "v1", 0⟩], [⟨"v1", "s1", "QmOld", 0⟩],
            ["QmOld"], [⟨"QmOld", "nodeA"⟩]⟩ : RegistryStore).versions.find?
          (fun v => v.id == cv) = some prev ∧
        prev.deployment = "QmOld" ∧ "QmOld" ≠ "QmNew" ∧
        (((⟨[⟨"s1", "x", some "v1", 0⟩], [⟨"v1", "s1", "QmOld", 0⟩],
            ["QmOld"], [⟨"QmOld", "nodeA"⟩]⟩ : RegistryStore).subgraphs.filter
          (fun sg2 =>
            match sg2.currentVersion with
            | some c =>
              (((⟨[⟨"s1", "x", some "v1", 0⟩], [⟨"v1", "s1", "QmOld", 0⟩],
                  ["QmOld"], [⟨"QmOld", "nodeA"⟩]⟩ : RegistryStore).versions.filter
                (fun v => v.deployment == "QmOld")).map
                (fun v => v.id)).contains c
            | none => false)).map (fun sg2 => sg2.id)).length = 1) :=
  ⟨rfl, create_subgraph_version_assignment_removal
      ⟨[⟨"s1", "x", some "v1", 0⟩], [⟨"v1", "s1", "QmOld", 0⟩],
        ["QmOld"], [⟨"QmOld", "nodeA"⟩]⟩
      "x" "QmNew" "nodeA" "v2" 1 _ rfl "QmOld"⟩

/-- C5 (counterexample to the claim as stated): in this store the name "x"
has previous currentVersion "QmNew" whose version entity references the
deployment hash "QmOld", which differs from the new deployment id "QmNew"
and is referenced as currentVersion by exactly one Subgraph, so the claim
requires a Remove of the "QmOld" Assignment; but because the previous
currentVersion id string equals the new deployment id string, the source
skips the whole removal block (registrar.rs line 467) and the successful
call emits no Assignment removal. -/
theorem create_subgraph_version_claim_cex :
    create_subgraph_version
        ⟨[⟨"s1", "x", some "QmNew", 0⟩], [⟨"QmNew", "s1", "QmOld", 0⟩],
          ["QmOld"], [⟨"QmOld", "nodeA"⟩]⟩
        "x" "QmNew" "nodeA" "v2" 1 =
      .ok [ .abortUnless "Subgraph entity must still exist, have same name and currentVersion"
              (.subgraphByNameAndCurrentVersion "x" (some "QmNew")) ["s1"],
            .setVersion ⟨"v2", "s1", "QmNew", 1⟩,
            .abortUnless "Subgraph deployment entity must continue to exist/not exist"
              (.deploymentById "QmNew") [],
            .setDeployment "QmNew",
            .abortUnless "Subgraph assignment entity must continue to exist/not exist"
              (.assignmentById "QmNew") [],
            .setAssignment ⟨"QmNew", "nodeA"⟩,
            .setCurrentVersion "s1" "v2" ] ∧
    find_subgraph_by_name
        ⟨[⟨"s1", "x", some "QmNew", 0⟩], [⟨"QmNew", "s1", "QmOld", 0⟩],
          ["QmOld"], [⟨"QmOld", "nodeA"⟩]⟩ "x" =
      some ⟨"s1", "x", some "QmNew", 0⟩ ∧
    (⟨[⟨"s1", "x", some "QmNew", 0⟩], [⟨"QmNew", "s1", "QmOld", 0⟩],
        ["QmOld"], [⟨"QmOld", "nodeA"⟩]⟩ : RegistryStore).versions.find?
        (fun v => v.id == "QmNew") = some ⟨"QmNew", "s1", "QmOld", 0⟩ ∧
    ("QmOld" : String) ≠ "QmNew" ∧
    (((⟨[⟨"s1", "x", some "QmNew", 0⟩], [⟨"QmNew", "s1", "QmOld", 0⟩],
        ["QmOld"], [⟨"QmOld", "nodeA"⟩]⟩ : RegistryStore).subgraphs.filter
      (fun sg2 =>
        match sg2.currentVersion with
        | some c =>
          (((⟨[⟨"s1", "x", some "QmNew", 0⟩], [⟨"QmNew", "s1", "QmOld", 0⟩],
              ["QmOld"], [⟨"QmOld", "nodeA"⟩]⟩ : RegistryStore).versions.filter
            (fun v => v.deployment == "QmOld")).map (fun v => v.id)).contains c
        | none => false)).map (fun sg2 => sg2.id)).length = 1 ∧
    RegOp.removeAssignment "QmOld" ∉
      [ RegOp.abortUnless "Subgraph entity must still exist, have same name and currentVersion"
          (.subgraphByNameAndCurrentVersion "x" (some "QmNew")) ["s1"],
        .setVersion ⟨"v2", "s1", "QmNew", 1⟩,
        .abortUnless "Subgraph deployment entity must continue to exist/not exist"
          (.deploymentById "QmNew") [],
        .setDeployment "QmNew",
        .abortUnless "Subgraph assignment entity must continue to exist/not exist"
          (.assignmentById "QmNew") [],
        .setAssignment ⟨"QmNew", "nodeA"⟩,
        .setCurrentVersion "s1" "v2" ] :=
  ⟨rfl, rfl, rfl, by decide, by decide, by decide⟩

lemma deploymentInvariant_iff (s : RegistryStore) :
    deploymentInvariant s = true ↔
      ∀ d, d ∈ s.deployments ↔ ∃ v ∈ s.versions, v.deployment = d := by
  simp only [deploymentInvariant, Bool.and_eq_true, List.all_eq_true,
    List.any_eq_true, beq_iff_eq, List.contains, List.elem_iff]
  constructor
  · rintro ⟨h1, h2⟩ d
    constructor
    · intro hd
      obtain ⟨v, hv, hvd⟩ := h1 d hd
      exact ⟨v, hv, hvd⟩
    · rintro ⟨v, hv, hvd⟩
      exact hvd ▸ h2 v hv
  · intro h
    constructor
    · intro d hd
      exact (h d).mp hd
    · intro v hv
      exact (h v.deployment).mpr ⟨v, hv, rfl⟩

lemma applyRegOps_append (l1 l2 : List RegOp) (s : RegistryStore) :
    applyRegOps s (l1 ++ l2) =
      (applyRegOps s l1).bind (fun t => applyRegOps t l2) := by
  induction l1 generalizing s with
  | nil => simp [applyRegOps]
  | cons op rest ih =>
    simp only [List.cons_append, applyRegOps]
    cases applyRegOp s op with
    | none => rfl
    | some s2 => exact ih s2

lemma applyRegOps_cons_abortUnless_some (d : String) (q : RegQuery)
    (e : List String) (rest : List RegOp) (s t : RegistryStore)
    (h : applyRegOps s (RegOp.abortUnless d q e :: rest) = some t) :
    applyRegOps s rest = some t := by
  by_cases hc : sortIds (s.runQuery q) = sortIds e
  · simpa [applyRegOps, applyRegOp, hc] using h
  · simp [applyRegOps, applyRegOp, hc] at h

lemma applyRegOps_removeDeployments (hs : List String) (s : RegistryStore) :
    ∃ t, applyRegOps s (hs.map RegOp.removeDeployment) = some t ∧
      t.subgraphs = s.subgraphs ∧ t.versions = s.versions ∧
      t.assignments = s.assignments ∧
      ∀ d, d ∈ t.deployments ↔ (d ∈ s.deployments ∧ d ∉ hs) := by
  induction hs generalizing s with
  | nil => exact ⟨s, rfl, rfl, rfl, rfl, by simp⟩
  | cons h rest ih =>
    obtain ⟨t, ht, h1, h2, h3, h4⟩ :=
      ih { s with deployments := s.deployments.filter (fun d => d != h) }
    refine ⟨t, ?_, h1, h2, h3, ?_⟩
    · simpa [applyRegOps, applyRegOp] using ht
    · intro d
      rw [h4 d]
      simp only [List.mem_filter, bne_iff_ne, ne_eq, decide_eq_true_eq,
        List.mem_cons, not_or]
      tauto

lemma applyRegOps_removeAssignments (hs : List String) (s : RegistryStore) :
    ∃ t, applyRegOps s (hs.map RegOp.removeAssignment) = some t ∧
      t.subgraphs = s.subgraphs ∧ t.versions = s.versions ∧
      t.deployments = s.deployments ∧
      ∀ a, a ∈ t.assignments ↔ (a ∈ s.assignments ∧ a.id ∉ hs) := by
  induction hs generalizing s with
  | nil => exact ⟨s, rfl, rfl, rfl, rfl, by simp⟩
  | cons h rest ih =>
    obtain ⟨t, ht, h1, h2, h3, h4⟩ :=
      ih { s with assignments := s.assignments.filter (fun a => a.id != h) }
    refine ⟨t, ?_, h1, h2, h3, ?_⟩
    · simpa [applyRegOps, applyRegOp] using ht
    · intro a
      rw [h4 a]
      simp only [List.mem_filter, bne_iff_ne, ne_eq, decide_eq_true_eq,
        List.mem_cons, not_or]
      tauto

lemma applyRegOps_removeVersions (vs : List VersionEntity) (s : RegistryStore) :
    ∃ t, applyRegOps s (vs.map (fun v => RegOp.removeVersion v.id)) = some t ∧
      t.subgraphs = s.subgraphs ∧ t.deployments = s.deployments ∧
      t.assignments = s.assignments ∧
      ∀ v, v ∈ t.versions ↔
        (v ∈ s.versions ∧ v.id ∉ vs.map (fun w => w.id)) := by
  induction vs generalizing s with
  | nil => exact ⟨s, rfl, rfl, rfl, rfl, by simp⟩
  | cons w rest ih =>
    obtain ⟨t, ht, h1, h2, h3, h4⟩ :=
      ih { s with versions := s.versions.filter (fun v => v.id != w.id) }
    refine ⟨t, ?_, h1, h2, h3, ?_⟩
    · simpa [applyRegOps, applyRegOp] using ht
    · intro v
      rw [h4 v]
      simp only [List.mem_filter, bne_iff_ne, ne_eq, decide_eq_true_eq,
        List.map_cons, List.mem_cons, not_or]
      tauto

lemma applyRegOps_removeSubgraph_some (id : String) (s t : RegistryStore)
    (h : applyRegOps s [RegOp.removeSubgraph id] = some t) :
    t = { s with subgraphs := s.subgraphs.filter (fun sg => sg.id != id) } := by
  simpa [applyRegOps, applyRegOp] using h.symm

lemma mem_subgraph_deployment_hashes (s : RegistryStore)
    (V : List VersionEntity) (d : String) :
    d ∈ subgraph_deployment_hashes_needing_deletion s V ↔
      (d ∈ V.map (fun v => v.deployment) ∧
       d ∉ (s.versions.filter (fun v =>
          ((V.map (fun w => w.deployment)).contains v.deployment) &&
          !((V.map (fun w => w.id)).contains v.id))).map
          (fun v => v.deployment)) := by
  simp only [subgraph_deployment_hashes_needing_deletion,
    referenced_subgraph_hashes, all_referencing_versions_after_delete,
    all_referencing_versions, version_entity_ids_to_delete,
    List.mem_filter, List.mem_map, List.mem_dedup, List.contains,
    List.elem_iff, List.elem_eq_mem, Bool.not_eq_true', Bool.and_eq_true,
    decide_eq_true_eq, decide_eq_false_iff_not, not_exists, not_and]
  constructor
  · rintro ⟨hH, hall⟩
    refine ⟨hH, ?_⟩
    intro x hx
    exact hall x ⟨⟨hx.1, hx.2.1⟩, hx.2.2⟩
  · rintro ⟨hH, hall⟩
    refine ⟨hH, ?_⟩
    intro x hx
    exact hall x ⟨hx.1.1, hx.1.2, hx.2⟩

lemma mem_rsv_removeDeployment (s : RegistryStore) (V : List VersionEntity)
    (d : String) :
    RegOp.removeDeployment d ∈ remove_subgraph_versions s V ↔
      d ∈ subgraph_deployment_hashes_needing_deletion s V := by
  simp [remove_subgraph_versions]

/-- C1: for a subgraph name present in the store, a successful
remove_subgraph emits Remove exactly for the deployment hashes referenced by
the versions being deleted (H) minus the hashes still referenced by a
surviving version (R-prime), and afterwards -- given that beforehand a
Deployment existed iff some Version referenced it, and that version ids are
unique -- the set of Deployment entities equals the set of deployment hashes
referenced by some surviving Version. -/
theorem remove_subgraph_gc (s : RegistryStore) (name : String)
    (sg : SubgraphEntity) (ops : List RegOp) (s2 : RegistryStore)
    (hfind : find_subgraph_by_name s name = some sg)
    (hops : remove_subgraph s name = .ok ops)
    (happly : applyRegOps s ops = some s2)
    (hinv : deploymentInvariant s = true)
    (hnodup : (s.versions.map (fun v => v.id)).Nodup) :
    (∀ d, RegOp.removeDeployment d ∈ ops ↔
      (d ∈ (versionsOfSubgraph s sg.id).map (fun v => v.deployment) ∧
       d ∉ (s.versions.filter (fun v =>
          (((versionsOfSubgraph s sg.id).map (fun w => w.deployment)).contains
            v.deployment) &&
          !(((versionsOfSubgraph s sg.id).map (fun w => w.id)).contains v.id))).map
          (fun v => v.deployment))) ∧
    (∀ v, v ∈ s2.versions ↔
      (v ∈ s.versions ∧
       v.id ∉ (versionsOfSubgraph s sg.id).map (fun w => w.id))) ∧
    (∀ d, d ∈ s2.deployments ↔ ∃ v ∈ s2.versions, v.deployment = d) := by
  have hopseq :
      ops =
        [ RegOp.abortUnless "Subgraph entity must still exist"
            (.subgraphByName name) [sg.id] ] ++
        [ RegOp.abortUnless "Subgraph must have same set of versions"
            (.versionsBySubgraph sg.id)
            ((versionsOfSubgraph s sg.id).map (fun v => v.id)) ] ++
        remove_subgraph_versions s (versionsOfSubgraph s sg.id) ++
        [ RegOp.removeSubgraph sg.id ] := by
    simp only [remove_subgraph, hfind] at hops
    injection hops with h
    exact h.symm
  subst hopseq
  -- decompose the sequential application
  simp only [List.append_assoc, List.cons_append, List.nil_append] at happly
  have h1 := applyRegOps_cons_abortUnless_some _ _ _ _ _ _ happly
  have h2 := applyRegOps_cons_abortUnless_some _ _ _ _ _ _ h1
  rw [remove_subgraph_versions] at h2
  simp only [List.append_assoc, List.cons_append, List.nil_append] at h2
  have h3 := applyRegOps_cons_abortUnless_some _ _ _ _ _ _ h2
  obtain ⟨t1, ht1, ht1sg, ht1v, ht1a, ht1d⟩ :=
    applyRegOps_removeDeployments
      (subgraph_deployment_hashes_needing_deletion s (versionsOfSubgraph s sg.id)) s
  rw [applyRegOps_append, ht1, Option.some_bind] at h3
  have h4 := applyRegOps_cons_abortUnless_some _ _ _ _ _ _ h3
  obtain ⟨t2, ht2, ht2sg, ht2v, ht2d, ht2a⟩ :=
    applyRegOps_removeAssignments
      (subgraph_assignment_hashes_needing_deletion s (versionsOfSubgraph s sg.id)) t1
  rw [applyRegOps_append, ht2, Option.some_bind] at h4
  obtain ⟨t3, ht3, ht3sg, ht3d, ht3a, ht3v⟩ :=
    applyRegOps_removeVersions (versionsOfSubgraph s sg.id) t2
  rw [applyRegOps_append, ht3, Option.some_bind] at h4
  have hs2 := applyRegOps_removeSubgraph_some _ _ _ h4
  -- characterisation of the final versions and deployments
  have hvers : ∀ v, v ∈ s2.versions ↔
      (v ∈ s.versions ∧
       v.id ∉ (versionsOfSubgraph s sg.id).map (fun w => w.id)) := by
    intro v
    rw [hs2]
    show v ∈ t3.versions ↔ _
    rw [ht3v v, ht2v, ht1v]
  have hdeps : ∀ d, d ∈ s2.deployments ↔
      (d ∈ s.deployments ∧
       d ∉ subgraph_deployment_hashes_needing_deletion s (versionsOfSubgraph s sg.id)) := by
    intro d
    rw [hs2]
    show d ∈ t3.deployments ↔ _
    rw [ht3d, ht2d, ht1d d]
  have hinv2 := (deploymentInvariant_iff s).mp hinv
  refine ⟨?_, hvers, ?_⟩
  · intro d
    simp only [List.mem_append, List.mem_cons, List.not_mem_nil, or_false]
    rw [mem_rsv_removeDeployment, mem_subgraph_deployment_hashes]
    simp
  · intro d
    rw [hdeps d]
    constructor
    · rintro ⟨hds, hdD⟩
      obtain ⟨v0, hv0, hv0d⟩ := (hinv2 d).mp hds
      by_cases hdH : d ∈ (versionsOfSubgraph s sg.id).map (fun w => w.deployment)
      · rw [mem_subgraph_deployment_hashes] at hdD
        have hdR : d ∈ (s.versions.filter (fun v =>
            (((versionsOfSubgraph s sg.id).map (fun w => w.deployment)).contains
              v.deployment) &&
            !(((versionsOfSubgraph s sg.id).map (fun w => w.id)).contains v.id))).map
            (fun v => v.deployment) := by
          by_contra hc
          exact hdD ⟨hdH, hc⟩
        obtain ⟨v, hvf, hvd⟩ := List.mem_map.mp hdR
        obtain ⟨hvs, hvcond⟩ := List.mem_filter.mp hvf
        simp only [Bool.and_eq_true, Bool.not_eq_true',
          List.contains, List.elem_eq_mem, decide_eq_true_eq,
          decide_eq_false_iff_not] at hvcond
        exact ⟨v, (hvers v).mpr ⟨hvs, hvcond.2⟩, hvd⟩
      · have hv0id : v0.id ∉ (versionsOfSubgraph s sg.id).map (fun w => w.id) := by
          intro hmem
          obtain ⟨w, hwV, hwid⟩ := List.mem_map.mp hmem
          have hwin : w ∈ s.versions := (List.mem_filter.mp hwV).1
          have hweq : w = v0 := List.inj_on_of_nodup_map hnodup hwin hv0 hwid
          subst hweq
          exact hdH (List.mem_map.mpr ⟨w, hwV, hv0d⟩)
        exact ⟨v0, (hvers v0).mpr ⟨hv0, hv0id⟩, hv0d⟩
    · rintro ⟨v, hv2, hvd⟩
      obtain ⟨hvs, hvids⟩ := (hvers v).mp hv2
      refine ⟨(hinv2 d).mpr ⟨v, hvs, hvd⟩, ?_⟩
      rw [mem_subgraph_deployment_hashes]
      rintro ⟨hdH, hdR⟩
      apply hdR
      refine List.mem_map.mpr ⟨v, List.mem_filter.mpr ⟨hvs, ?_⟩, hvd⟩
      simp only [Bool.and_eq_true, Bool.not_eq_true',
        List.contains, List.elem_eq_mem, decide_eq_true_eq,
        decide_eq_false_iff_not]
      exact ⟨hvd ▸ hdH, hvids⟩


theorem remove_subgraph_gc_witness :
    find_subgraph_by_name removeSubgraphExampleStore "x" =
      some ⟨"s1", "x", some "v1", 0⟩ ∧
    remove_subgraph removeSubgraphExampleStore "x" =
      .ok removeSubgraphExampleOps ∧
    applyRegOps removeSubgraphExampleStore removeSubgraphExampleOps =
      some removeSubgraphExampleAfter ∧
    deploymentInvariant removeSubgraphExampleStore = true ∧
    (removeSubgraphExampleStore.versions.map (fun v => v.id)).Nodup ∧
    ((∀ d, RegOp.removeDeployment d ∈ removeSubgraphExampleOps ↔
      (d ∈ (versionsOfSubgraph removeSubgraphExampleStore "s1").map
          (fun v => v.deployment) ∧
       d ∉ (removeSubgraphExampleStore.versions.filter (fun v =>
          (((versionsOfSubgraph removeSubgraphExampleStore "s1").map
            (fun w => w.deployment)).contains v.deployment) &&
          !(((versionsOfSubgraph removeSubgraphExampleStore "s1").map
            (fun w => w.id)).contains v.id))).map
          (fun v => v.deployment))) ∧
    (∀ v, v ∈ removeSubgraphExampleAfter.versions ↔
      (v ∈ removeSubgraphExampleStore.versions ∧
       v.id ∉ (versionsOfSubgraph removeSubgraphExampleStore "s1").map
          (fun w => w.id))) ∧
    (∀ d, d ∈ removeSubgraphExampleAfter.deployments ↔
      ∃ v ∈ removeSubgraphExampleAfter.versions, v.deployment = d)) :=
  ⟨rfl, rfl, rfl, rfl, by decide,
    remove_subgraph_gc removeSubgraphExampleStore "x" ⟨"s1", "x", some "v1", 0⟩
      removeSubgraphExampleOps removeSubgraphExampleAfter rfl rfl rfl rfl
      (by decide)⟩

end GraphNode
